import Mathlib

/-
Shallow embedding of `senza/manaus/iam.py`: the `IAMServerCertificate`
value object and the `IAM.get_certificates` query filter.

Modelling conventions:
* Python datetimes are integers (a point on a global timeline).
* Python dicts are association lists; `d[k]` is a lookup that raises
  `KeyError k` when the key is absent.
* Dynamically typed dict values are the inductive `MVal` (strings or
  datetimes, the two value kinds appearing in certificate metadata);
  boto response dicts additionally hold nested metadata dicts (`BVal`).
* Python `<` between dynamic values is defined on same-kind values and
  raises `TypeError` otherwise, modelled by an `Option Bool` result.
* Fallible code returns `Except PyError`; boto's `ClientError` carries
  its error code as a string (`NoSuchEntity` for a missing name).
* The lazy generator `get_certificates` is modelled as the eagerly
  materialised list of everything it yields (an error anywhere in the
  iteration aborts the whole sequence, matching the fail-fast policy).
* The remote IAM service is an explicit parameter: the list of raw
  server certificates for the resource iteration, and an oracle
  function for the `get_server_certificate` client call.
-/

/-- A dynamically typed metadata value: Python strings or datetimes. -/
inductive MVal where
  | str (s : String)
  | time (t : Int)
deriving DecidableEq

/-- A dynamically typed value of a boto response dict: strings, datetimes,
or a nested (flat) metadata dict. -/
inductive BVal where
  | str (s : String)
  | time (t : Int)
  | dict (m : List (String × MVal))
deriving DecidableEq

/-- Errors the embedded code can raise: Python `KeyError` (a missing dict
key, the spec's `MissingFieldError`), Python `TypeError` (an unsupported
comparison or indexing of a non-dict), and botocore's `ClientError`
carrying its error code (the spec's `ServiceError`; code `NoSuchEntity`
is the spec's `NotFoundError`). -/
inductive PyError where
  | keyError (k : String)
  | typeError
  | clientError (code : String)
deriving DecidableEq

/-- Python dict indexing `m[k]`: the value when present, `KeyError k`
otherwise. -/
def getItem (m : List (String × MVal)) (k : String) : Except PyError MVal :=
  match List.lookup k m with
  | some v => Except.ok v
  | none => Except.error (PyError.keyError k)

/-- Python dict indexing for a boto response dict. -/
def getItemB (m : List (String × BVal)) (k : String) : Except PyError BVal :=
  match List.lookup k m with
  | some v => Except.ok v
  | none => Except.error (PyError.keyError k)

/-- Python `<` between two dynamic values: defined between two strings or
between two datetimes, `TypeError` (`none`) between unlike kinds. -/
def pyLt : MVal → MVal → Option Bool
  | MVal.str a, MVal.str b => some (decide (a < b))
  | MVal.time a, MVal.time b => some (decide (a < b))
  | _, _ => none

/-- Predicate `isPrefixChars p s`: `p` is a prefix of `s` (Python `str.startswith`
on the character sequences). -/
def isPrefixChars : List Char → List Char → Bool
  | [], _ => true
  | _ :: _, [] => false
  | p :: ps, c :: cs => p == c && isPrefixChars ps cs

/-- Predicate `isSubChars p s`: `p` occurs contiguously somewhere in `s`
(Python `p in s` on the character sequences). -/
def isSubChars (p : List Char) : List Char → Bool
  | [] => isPrefixChars p []
  | c :: cs => isPrefixChars p (c :: cs) || isSubChars p cs

/-- Python `s.startswith(p)`. -/
def pyStartsWith (s p : String) : Bool := isPrefixChars p.data s.data

/-- Python `p in s` (substring containment). -/
def pyIn (p s : String) : Bool := isSubChars p.data s.data

/-- The in-memory certificate record: the raw metadata dict it was built
from, the two PEM payloads, and the six convenience fields copied out of
the metadata by `__init__`. -/
structure IAMServerCertificate where
  metadata : List (String × MVal)
  certificate_body : String
  certificate_chain : String
  name : MVal
  arn : MVal
  expiration : MVal
  path : MVal
  certificate_id : MVal
  upload_date : MVal
deriving DecidableEq

namespace IAMServerCertificate

/-- Constructor `IAMServerCertificate.__init__`: reads the six metadata fields in
source order (each read can raise `KeyError`) and stores everything. -/
def init (metadata : List (String × MVal)) (certificate_body certificate_chain : String) :
    Except PyError IAMServerCertificate :=
  match getItem metadata "ServerCertificateName" with
  | Except.error e => Except.error e
  | Except.ok name =>
  match getItem metadata "Arn" with
  | Except.error e => Except.error e
  | Except.ok arn =>
  match getItem metadata "Expiration" with
  | Except.error e => Except.error e
  | Except.ok expiration =>
  match getItem metadata "Path" with
  | Except.error e => Except.error e
  | Except.ok path =>
  match getItem metadata "ServerCertificateId" with
  | Except.error e => Except.error e
  | Except.ok certificate_id =>
  match getItem metadata "UploadDate" with
  | Except.error e => Except.error e
  | Except.ok upload_date =>
    Except.ok { metadata, certificate_body, certificate_chain,
                name, arn, expiration, path, certificate_id, upload_date }

/-- Method `__lt__`: compares the two upload dates with Python `<`. -/
def lt (a b : IAMServerCertificate) : Option Bool :=
  pyLt a.upload_date b.upload_date

/-- Method `__eq__`: compares the two ARNs with Python `==` (total between any
two values). -/
def eq (a b : IAMServerCertificate) : Bool :=
  a.arn == b.arn

/-- Classmethod `from_boto_dict`: reads `ServerCertificateMetadata`, `CertificateBody`
and `CertificateChain` (each read can raise `KeyError`) and delegates to
the constructor. A value of the wrong dynamic kind is a `TypeError` at
the point Python would first misuse it. -/
def from_boto_dict (server_certificate : List (String × BVal)) :
    Except PyError IAMServerCertificate :=
  match getItemB server_certificate "ServerCertificateMetadata" with
  | Except.error e => Except.error e
  | Except.ok metadataV =>
  match getItemB server_certificate "CertificateBody" with
  | Except.error e => Except.error e
  | Except.ok bodyV =>
  match getItemB server_certificate "CertificateChain" with
  | Except.error e => Except.error e
  | Except.ok chainV =>
  match metadataV, bodyV, chainV with
  | BVal.dict metadata, BVal.str certificate_body, BVal.str certificate_chain =>
      init metadata certificate_body certificate_chain
  | _, _, _ => Except.error PyError.typeError

/-- Classifier `arn_is_server_certificate`: `False` on `None`, otherwise the ARN
prefix test conjoined with the substring test, exactly as in the source. -/
def arn_is_server_certificate (arn : Option String) : Bool :=
  match arn with
  | none => false
  | some arn => pyStartsWith arn "arn:aws:iam:" && pyIn "server-certificate" arn

/-- Method `is_valid`: `when` defaults to the current time `now`; returns
`when < expiration` under Python `<` (a `TypeError`, i.e. `none`, when
the stored expiration is not a datetime). -/
def is_valid (c : IAMServerCertificate) (now : Int) (when : Option Int) : Option Bool :=
  let w := match when with | some w => w | none => now
  pyLt (MVal.time w) c.expiration

end IAMServerCertificate

/-- A server certificate as yielded by `resource.server_certificates.all()`:
attribute access never fails, so the three attributes are plain fields. -/
structure BotoServerCertificate where
  server_certificate_metadata : List (String × MVal)
  certificate_body : String
  certificate_chain : String
deriving DecidableEq

/-- Classmethod `from_boto_server_certificate`: reads the three resource attributes and
delegates to the constructor. -/
def IAMServerCertificate.from_boto_server_certificate (sc : BotoServerCertificate) :
    Except PyError IAMServerCertificate :=
  IAMServerCertificate.init sc.server_certificate_metadata
    sc.certificate_body sc.certificate_chain

/-- Classmethod `get_by_name`: `client name` models
`boto3.client('iam').get_server_certificate(ServerCertificateName=name)['ServerCertificate']`,
i.e. the raw dict the remote service returns for `name`, or the
`ClientError` the call raised (`NoSuchEntity` when no such name exists).
The source catches nothing: a client error propagates unchanged. -/
def IAMServerCertificate.get_by_name
    (client : String → Except PyError (List (String × BVal))) (name : String) :
    Except PyError IAMServerCertificate :=
  match client name with
  | Except.error e => Except.error e
  | Except.ok server_certificate => IAMServerCertificate.from_boto_dict server_certificate

/-- Python `name is not None and certificate.name != name`: the condition
under which the name filter skips a record. -/
def nameFilterSkips (name : Option String) (c : IAMServerCertificate) : Bool :=
  match name with
  | some n => c.name != MVal.str n
  | none => false

namespace IAM

/-- Generator `IAM.get_certificates`: iterates the raw certificates in service order,
normalises each one (fail-fast on error), skips those failing the name
filter, then those failing the validity filter (Python `and` is lazy:
`is_valid` only runs when `valid_only` is set), and yields the rest in
order. `now` is the clock read by the defaulted `is_valid()` call. -/
def get_certificates (valid_only : Bool) (name : Option String) (now : Int) :
    List BotoServerCertificate → Except PyError (List IAMServerCertificate)
  | [] => Except.ok []
  | sc :: rest =>
    match IAMServerCertificate.from_boto_server_certificate sc with
    | Except.error e => Except.error e
    | Except.ok certificate =>
      if nameFilterSkips name certificate then get_certificates valid_only name now rest
      else if valid_only then
        match certificate.is_valid now none with
        | none => Except.error PyError.typeError
        | some v =>
          if v then
            Except.map (certificate :: ·) (get_certificates valid_only name now rest)
          else get_certificates valid_only name now rest
      else
        Except.map (certificate :: ·) (get_certificates valid_only name now rest)

end IAM

deriving instance DecidableEq for Except

/-! Sample data used by the witness theorems. -/

/-- A well-formed metadata dict for a sample certificate. -/
def sampleMetadata : List (String × MVal) :=
  [("ServerCertificateName", MVal.str "cert-a"),
   ("Arn", MVal.str "arn:aws:iam::123:server-certificate/cert-a"),
   ("Expiration", MVal.time 100),
   ("Path", MVal.str "/"),
   ("ServerCertificateId", MVal.str "ID1"),
   ("UploadDate", MVal.time 10)]

/-- The record the constructor builds from `sampleMetadata`. -/
def sampleCert : IAMServerCertificate :=
  { metadata := sampleMetadata,
    certificate_body := "BODY",
    certificate_chain := "CHAIN",
    name := MVal.str "cert-a",
    arn := MVal.str "arn:aws:iam::123:server-certificate/cert-a",
    expiration := MVal.time 100,
    path := MVal.str "/",
    certificate_id := MVal.str "ID1",
    upload_date := MVal.time 10 }

example : IAMServerCertificate.init sampleMetadata "BODY" "CHAIN" = Except.ok sampleCert := by
  decide

/-- C2: with expiration timestamp `E`, `is_valid` at explicit instant `t`
returns exactly `t < E`: true strictly before `E`, false at `E` and after. -/
theorem is_valid_strict_iff (c : IAMServerCertificate) (E : Int)
    (h : c.expiration = MVal.time E) (now t : Int) :
    (c.is_valid now (some t) = some true ↔ t < E) ∧
    c.is_valid now (some E) = some false ∧
    (t < E → c.is_valid now (some t) = some true) ∧
    (E < t → c.is_valid now (some t) = some false) := by
  simp only [IAMServerCertificate.is_valid, h, pyLt]
  refine ⟨by simp, by simp, fun hlt => by simp [hlt], fun hgt => by simp; omega⟩

/-- Witness for C2 at a concrete certificate expiring at 100. -/
theorem is_valid_strict_iff_witness :
    (sampleCert.is_valid 0 (some 99) = some true ↔ (99 : Int) < 100) ∧
    sampleCert.is_valid 0 (some 100) = some false ∧
    ((99 : Int) < 100 → sampleCert.is_valid 0 (some 99) = some true) ∧
    ((100 : Int) < 99 → sampleCert.is_valid 0 (some 99) = some false) :=
  is_valid_strict_iff sampleCert 100 rfl 0 99

/-- C3: record equality holds exactly when the ARNs are equal; no other
field takes part in the comparison. -/
theorem eq_iff_arn_eq (a b : IAMServerCertificate) :
    IAMServerCertificate.eq a b = true ↔ a.arn = b.arn := by
  simp [IAMServerCertificate.eq]

/-- C4: with upload timestamps `ta`, `tb`, the record ordering holds
exactly when `ta < tb`, whatever every other field is; with equal upload
dates neither record is below the other. -/
theorem lt_iff_upload_date (a b : IAMServerCertificate) (ta tb : Int)
    (ha : a.upload_date = MVal.time ta) (hb : b.upload_date = MVal.time tb) :
    (IAMServerCertificate.lt a b = some true ↔ ta < tb) ∧
    (ta = tb →
      IAMServerCertificate.lt a b = some false ∧
      IAMServerCertificate.lt b a = some false) := by
  simp only [IAMServerCertificate.lt, ha, hb, pyLt]
  refine ⟨by simp, fun hteq => by simp [hteq]⟩

/-- Witness for C4 at a concrete pair with equal upload dates. -/
theorem lt_iff_upload_date_witness :
    (IAMServerCertificate.lt sampleCert sampleCert = some true ↔ (10 : Int) < 10) ∧
    ((10 : Int) = 10 →
      IAMServerCertificate.lt sampleCert sampleCert = some false ∧
      IAMServerCertificate.lt sampleCert sampleCert = some false) :=
  lt_iff_upload_date sampleCert sampleCert 10 10 rfl rfl

/-- C5: the ARN classifier is false on `None`; on a string it is exactly
the conjunction of the `arn:aws:iam:` prefix test and the
`server-certificate` substring test, false on a user ARN and true on a
server-certificate ARN. -/
theorem arn_is_server_certificate_spec :
    IAMServerCertificate.arn_is_server_certificate none = false ∧
    (∀ s : String, IAMServerCertificate.arn_is_server_certificate (some s) =
      (pyStartsWith s "arn:aws:iam:" && pyIn "server-certificate" s)) ∧
    IAMServerCertificate.arn_is_server_certificate
      (some "arn:aws:iam::123:user/foo") = false ∧
    IAMServerCertificate.arn_is_server_certificate
      (some "arn:aws:iam::123:server-certificate/foo") = true :=
  ⟨rfl, fun _ => rfl, by decide, by decide⟩

/-- C9: the classifier is a pure substring test: any string with the
`arn:aws:iam:` prefix that contains `server-certificate` anywhere is
classified true, whatever resource type the ARN actually names. -/
theorem arn_classifier_pure_substring (s : String)
    (h1 : pyStartsWith s "arn:aws:iam:" = true)
    (h2 : pyIn "server-certificate" s = true) :
    IAMServerCertificate.arn_is_server_certificate (some s) = true := by
  simp [IAMServerCertificate.arn_is_server_certificate, h1, h2]

/-- Witness for C9: a user ARN whose user name merely contains the
substring is classified true. -/
theorem arn_classifier_pure_substring_witness :
    IAMServerCertificate.arn_is_server_certificate
      (some "arn:aws:iam::123:user/my-server-certificate") = true :=
  arn_classifier_pure_substring "arn:aws:iam::123:user/my-server-certificate"
    (by decide) (by decide)

/-- The six metadata fields the constructor reads. -/
def requiredMetadataFields : List String :=
  ["ServerCertificateName", "Arn", "Expiration", "Path",
   "ServerCertificateId", "UploadDate"]

/-- The three fields `from_boto_dict` reads from the raw entry itself. -/
def requiredTopFields : List String :=
  ["ServerCertificateMetadata", "CertificateBody", "CertificateChain"]

/-- Required field `k` is absent from the raw entry `d`: either one of the
three top-level fields is missing, or the metadata dict is there but lacks
one of the six metadata fields. -/
def rawFieldMissing (d : List (String × BVal)) (k : String) : Prop :=
  (k ∈ requiredTopFields ∧ List.lookup k d = none) ∨
  (k ∈ requiredMetadataFields ∧
    ∃ m, List.lookup "ServerCertificateMetadata" d = some (BVal.dict m) ∧
      List.lookup k m = none)

/-- Lookup `getItem` succeeds exactly on a successful dict lookup. -/
theorem getItem_ok (m : List (String × MVal)) (k : String) (v : MVal) :
    getItem m k = Except.ok v ↔ List.lookup k m = some v := by
  unfold getItem
  split
  · rename_i v' heq; simp [heq]
  · rename_i heq; simp [heq]

/-- Lookup `getItem` fails exactly on a missing key, with that key's `KeyError`. -/
theorem getItem_err (m : List (String × MVal)) (k : String) (e : PyError) :
    getItem m k = Except.error e ↔ (e = PyError.keyError k ∧ List.lookup k m = none) := by
  unfold getItem
  split
  · rename_i v' heq; simp [heq]
  · rename_i heq; simp [heq, eq_comm]

/-- Lookup `getItemB` succeeds exactly on a successful dict lookup. -/
theorem getItemB_ok (m : List (String × BVal)) (k : String) (v : BVal) :
    getItemB m k = Except.ok v ↔ List.lookup k m = some v := by
  unfold getItemB
  split
  · rename_i v' heq; simp [heq]
  · rename_i heq; simp [heq]

/-- Lookup `getItemB` fails exactly on a missing key, with that key's `KeyError`. -/
theorem getItemB_err (m : List (String × BVal)) (k : String) (e : PyError) :
    getItemB m k = Except.error e ↔ (e = PyError.keyError k ∧ List.lookup k m = none) := by
  unfold getItemB
  split
  · rename_i v' heq; simp [heq]
  · rename_i heq; simp [heq, eq_comm]

/-- Helper: a successful `init` keeps the metadata dict and both payloads
verbatim, and each convenience field is exactly the corresponding metadata
entry. -/
theorem init_ok_spec (md : List (String × MVal)) (body chain : String)
    (c : IAMServerCertificate)
    (h : IAMServerCertificate.init md body chain = Except.ok c) :
    c.metadata = md ∧ c.certificate_body = body ∧ c.certificate_chain = chain ∧
    List.lookup "ServerCertificateName" md = some c.name ∧
    List.lookup "Arn" md = some c.arn ∧
    List.lookup "Expiration" md = some c.expiration ∧
    List.lookup "Path" md = some c.path ∧
    List.lookup "ServerCertificateId" md = some c.certificate_id ∧
    List.lookup "UploadDate" md = some c.upload_date := by
  unfold IAMServerCertificate.init at h
  cases h1 : getItem md "ServerCertificateName" with
  | error e => simp [h1] at h
  | ok name =>
  simp only [h1] at h
  cases h2 : getItem md "Arn" with
  | error e => simp [h2] at h
  | ok arn =>
  simp only [h2] at h
  cases h3 : getItem md "Expiration" with
  | error e => simp [h3] at h
  | ok expiration =>
  simp only [h3] at h
  cases h4 : getItem md "Path" with
  | error e => simp [h4] at h
  | ok path =>
  simp only [h4] at h
  cases h5 : getItem md "ServerCertificateId" with
  | error e => simp [h5] at h
  | ok certificate_id =>
  simp only [h5] at h
  cases h6 : getItem md "UploadDate" with
  | error e => simp [h6] at h
  | ok upload_date =>
  simp only [h6, Except.ok.injEq] at h
  subst h
  exact ⟨rfl, rfl, rfl, (getItem_ok md _ _).mp h1, (getItem_ok md _ _).mp h2,
         (getItem_ok md _ _).mp h3, (getItem_ok md _ _).mp h4,
         (getItem_ok md _ _).mp h5, (getItem_ok md _ _).mp h6⟩

/-- Helper: `init` either succeeds or raises the `KeyError` of one of the
six required metadata fields, that field being genuinely absent. -/
theorem init_ok_or_missingKey (md : List (String × MVal)) (body chain : String) :
    (∃ c, IAMServerCertificate.init md body chain = Except.ok c) ∨
    (∃ k, k ∈ requiredMetadataFields ∧
      IAMServerCertificate.init md body chain = Except.error (PyError.keyError k) ∧
      List.lookup k md = none) := by
  cases h1 : getItem md "ServerCertificateName" with
  | error e =>
    obtain ⟨rfl, hn⟩ := (getItem_err md _ e).mp h1
    exact Or.inr ⟨_, by simp [requiredMetadataFields],
      by simp [IAMServerCertificate.init, h1], hn⟩
  | ok name =>
  cases h2 : getItem md "Arn" with
  | error e =>
    obtain ⟨rfl, hn⟩ := (getItem_err md _ e).mp h2
    exact Or.inr ⟨_, by simp [requiredMetadataFields],
      by simp [IAMServerCertificate.init, h1, h2], hn⟩
  | ok arn =>
  cases h3 : getItem md "Expiration" with
  | error e =>
    obtain ⟨rfl, hn⟩ := (getItem_err md _ e).mp h3
    exact Or.inr ⟨_, by simp [requiredMetadataFields],
      by simp [IAMServerCertificate.init, h1, h2, h3], hn⟩
  | ok expiration =>
  cases h4 : getItem md "Path" with
  | error e =>
    obtain ⟨rfl, hn⟩ := (getItem_err md _ e).mp h4
    exact Or.inr ⟨_, by simp [requiredMetadataFields],
      by simp [IAMServerCertificate.init, h1, h2, h3, h4], hn⟩
  | ok path =>
  cases h5 : getItem md "ServerCertificateId" with
  | error e =>
    obtain ⟨rfl, hn⟩ := (getItem_err md _ e).mp h5
    exact Or.inr ⟨_, by simp [requiredMetadataFields],
      by simp [IAMServerCertificate.init, h1, h2, h3, h4, h5], hn⟩
  | ok certificate_id =>
  cases h6 : getItem md "UploadDate" with
  | error e =>
    obtain ⟨rfl, hn⟩ := (getItem_err md _ e).mp h6
    exact Or.inr ⟨_, by simp [requiredMetadataFields],
      by simp [IAMServerCertificate.init, h1, h2, h3, h4, h5, h6], hn⟩
  | ok upload_date =>
    exact Or.inl ⟨{ metadata := md, certificate_body := body,
                    certificate_chain := chain, name := name, arn := arn,
                    expiration := expiration, path := path,
                    certificate_id := certificate_id, upload_date := upload_date },
      by simp [IAMServerCertificate.init, h1, h2, h3, h4, h5, h6]⟩

/-- C10: a constructed record keeps the raw metadata mapping it was built
from, and each of the six convenience fields equals the corresponding
entry of that mapping (an invariant: records are never mutated, so it is
established once at construction). -/
theorem init_metadata_invariant (md : List (String × MVal)) (body chain : String)
    (c : IAMServerCertificate)
    (h : IAMServerCertificate.init md body chain = Except.ok c) :
    c.metadata = md ∧
    List.lookup "ServerCertificateName" c.metadata = some c.name ∧
    List.lookup "Arn" c.metadata = some c.arn ∧
    List.lookup "Expiration" c.metadata = some c.expiration ∧
    List.lookup "Path" c.metadata = some c.path ∧
    List.lookup "ServerCertificateId" c.metadata = some c.certificate_id ∧
    List.lookup "UploadDate" c.metadata = some c.upload_date := by
  obtain ⟨hm, -, -, h1, h2, h3, h4, h5, h6⟩ := init_ok_spec md body chain c h
  rw [hm]
  exact ⟨rfl, h1, h2, h3, h4, h5, h6⟩

/-- Witness for C10 at the sample metadata dict. -/
theorem init_metadata_invariant_witness :
    sampleCert.metadata = sampleMetadata ∧
    List.lookup "ServerCertificateName" sampleCert.metadata = some sampleCert.name ∧
    List.lookup "Arn" sampleCert.metadata = some sampleCert.arn ∧
    List.lookup "Expiration" sampleCert.metadata = some sampleCert.expiration ∧
    List.lookup "Path" sampleCert.metadata = some sampleCert.path ∧
    List.lookup "ServerCertificateId" sampleCert.metadata = some sampleCert.certificate_id ∧
    List.lookup "UploadDate" sampleCert.metadata = some sampleCert.upload_date :=
  init_metadata_invariant sampleMetadata "BODY" "CHAIN" sampleCert (by decide)

/-- C8: normalising a valid raw entry round-trips all eight fields
verbatim into the record. -/
theorem from_boto_dict_roundtrip (d : List (String × BVal)) (md : List (String × MVal))
    (body chain : String) (n a e p i u : MVal)
    (hm : List.lookup "ServerCertificateMetadata" d = some (BVal.dict md))
    (hb : List.lookup "CertificateBody" d = some (BVal.str body))
    (hch : List.lookup "CertificateChain" d = some (BVal.str chain))
    (h1 : List.lookup "ServerCertificateName" md = some n)
    (h2 : List.lookup "Arn" md = some a)
    (h3 : List.lookup "Expiration" md = some e)
    (h4 : List.lookup "Path" md = some p)
    (h5 : List.lookup "ServerCertificateId" md = some i)
    (h6 : List.lookup "UploadDate" md = some u) :
    IAMServerCertificate.from_boto_dict d = Except.ok
      { metadata := md, certificate_body := body, certificate_chain := chain,
        name := n, arn := a, expiration := e, path := p,
        certificate_id := i, upload_date := u } := by
  have hm' := (getItemB_ok d "ServerCertificateMetadata" _).mpr hm
  have hb' := (getItemB_ok d "CertificateBody" _).mpr hb
  have hch' := (getItemB_ok d "CertificateChain" _).mpr hch
  have g1 := (getItem_ok md "ServerCertificateName" _).mpr h1
  have g2 := (getItem_ok md "Arn" _).mpr h2
  have g3 := (getItem_ok md "Expiration" _).mpr h3
  have g4 := (getItem_ok md "Path" _).mpr h4
  have g5 := (getItem_ok md "ServerCertificateId" _).mpr h5
  have g6 := (getItem_ok md "UploadDate" _).mpr h6
  simp [IAMServerCertificate.from_boto_dict, IAMServerCertificate.init,
        hm', hb', hch', g1, g2, g3, g4, g5, g6]

/-- The raw boto dict the sample certificate is normalised from. -/
def sampleRaw : List (String × BVal) :=
  [("ServerCertificateMetadata", BVal.dict sampleMetadata),
   ("CertificateBody", BVal.str "BODY"),
   ("CertificateChain", BVal.str "CHAIN")]

/-- Witness for C8 at the sample raw entry. -/
theorem from_boto_dict_roundtrip_witness :
    IAMServerCertificate.from_boto_dict sampleRaw = Except.ok sampleCert :=
  from_boto_dict_roundtrip sampleRaw sampleMetadata "BODY" "CHAIN"
    (MVal.str "cert-a") (MVal.str "arn:aws:iam::123:server-certificate/cert-a")
    (MVal.time 100) (MVal.str "/") (MVal.str "ID1") (MVal.time 10)
    (by decide) (by decide) (by decide) (by decide) (by decide)
    (by decide) (by decide) (by decide) (by decide)

/-- C6: constructing a record from a raw entry whose present fields are
well-typed either succeeds, or fails with the `KeyError` (the spec's
`MissingFieldError`) of a genuinely absent required field — all six
metadata fields and both payload fields (and the metadata dict itself)
are required — and a successful construction means no required field was
absent; no other error is possible. -/
theorem construction_missing_field_only (d : List (String × BVal))
    (hmt : ∀ v, List.lookup "ServerCertificateMetadata" d = some v → ∃ m, v = BVal.dict m)
    (hbt : ∀ v, List.lookup "CertificateBody" d = some v → ∃ s, v = BVal.str s)
    (hct : ∀ v, List.lookup "CertificateChain" d = some v → ∃ s, v = BVal.str s) :
    ((∃ c, IAMServerCertificate.from_boto_dict d = Except.ok c) ∨
      (∃ k, IAMServerCertificate.from_boto_dict d = Except.error (PyError.keyError k) ∧
        rawFieldMissing d k)) ∧
    (∀ c, IAMServerCertificate.from_boto_dict d = Except.ok c →
      ∀ k, ¬ rawFieldMissing d k) := by
  cases hm : getItemB d "ServerCertificateMetadata" with
  | error e =>
    obtain ⟨rfl, hn⟩ := (getItemB_err d _ e).mp hm
    refine ⟨Or.inr ⟨"ServerCertificateMetadata",
      by simp [IAMServerCertificate.from_boto_dict, hm],
      Or.inl ⟨by simp [requiredTopFields], hn⟩⟩, ?_⟩
    intro c hc
    simp [IAMServerCertificate.from_boto_dict, hm] at hc
  | ok v =>
    have hm0 := (getItemB_ok d _ v).mp hm
    obtain ⟨m, rfl⟩ := hmt v hm0
    cases hb : getItemB d "CertificateBody" with
    | error e =>
      obtain ⟨rfl, hn⟩ := (getItemB_err d _ e).mp hb
      refine ⟨Or.inr ⟨"CertificateBody",
        by simp [IAMServerCertificate.from_boto_dict, hm, hb],
        Or.inl ⟨by simp [requiredTopFields], hn⟩⟩, ?_⟩
      intro c hc
      simp [IAMServerCertificate.from_boto_dict, hm, hb] at hc
    | ok vb =>
      have hb0 := (getItemB_ok d _ vb).mp hb
      obtain ⟨b, rfl⟩ := hbt vb hb0
      cases hch : getItemB d "CertificateChain" with
      | error e =>
        obtain ⟨rfl, hn⟩ := (getItemB_err d _ e).mp hch
        refine ⟨Or.inr ⟨"CertificateChain",
          by simp [IAMServerCertificate.from_boto_dict, hm, hb, hch],
          Or.inl ⟨by simp [requiredTopFields], hn⟩⟩, ?_⟩
        intro c hc
        simp [IAMServerCertificate.from_boto_dict, hm, hb, hch] at hc
      | ok vc =>
        have hch0 := (getItemB_ok d _ vc).mp hch
        obtain ⟨ch, rfl⟩ := hct vc hch0
        have heqinit : IAMServerCertificate.from_boto_dict d =
            IAMServerCertificate.init m b ch := by
          simp [IAMServerCertificate.from_boto_dict, hm, hb, hch]
        rcases init_ok_or_missingKey m b ch with ⟨c, hok⟩ | ⟨k, hkmem, herr, hnone⟩
        · refine ⟨Or.inl ⟨c, by rw [heqinit]; exact hok⟩, ?_⟩
          intro c' hc' k hk
          have hc'' : IAMServerCertificate.init m b ch = Except.ok c' := by
            rw [heqinit] at hc'; exact hc'
          obtain ⟨-, -, -, l1, l2, l3, l4, l5, l6⟩ := init_ok_spec m b ch c' hc''
          rcases hk with ⟨hkTop, hkNone⟩ | ⟨hkMeta, m', hm', hnoneK⟩
          · simp only [requiredTopFields, List.mem_cons, List.mem_singleton,
              List.not_mem_nil, or_false] at hkTop
            rcases hkTop with rfl | rfl | rfl
            · rw [hm0] at hkNone; cases hkNone
            · rw [hb0] at hkNone; cases hkNone
            · rw [hch0] at hkNone; cases hkNone
          · rw [hm0] at hm'
            have hmm : m = m' := by
              injection hm' with h'
              injection h'
            subst hmm
            simp only [requiredMetadataFields, List.mem_cons, List.mem_singleton,
              List.not_mem_nil, or_false] at hkMeta
            rcases hkMeta with rfl | rfl | rfl | rfl | rfl | rfl
            · rw [l1] at hnoneK; cases hnoneK
            · rw [l2] at hnoneK; cases hnoneK
            · rw [l3] at hnoneK; cases hnoneK
            · rw [l4] at hnoneK; cases hnoneK
            · rw [l5] at hnoneK; cases hnoneK
            · rw [l6] at hnoneK; cases hnoneK
        · refine ⟨Or.inr ⟨k, by rw [heqinit]; exact herr,
            Or.inr ⟨hkmem, m, hm0, hnone⟩⟩, ?_⟩
          intro c hc
          rw [heqinit, herr] at hc
          cases hc

/-- Witness for C6 at the sample raw entry (all fields present and
well-typed). -/
theorem construction_missing_field_only_witness :
    ((∃ c, IAMServerCertificate.from_boto_dict sampleRaw = Except.ok c) ∨
      (∃ k, IAMServerCertificate.from_boto_dict sampleRaw =
          Except.error (PyError.keyError k) ∧ rawFieldMissing sampleRaw k)) ∧
    (∀ c, IAMServerCertificate.from_boto_dict sampleRaw = Except.ok c →
      ∀ k, ¬ rawFieldMissing sampleRaw k) :=
  construction_missing_field_only sampleRaw
    (fun v hv => ⟨sampleMetadata, by
      have h' : some (BVal.dict sampleMetadata) = some v := by rw [← hv]; decide
      exact (Option.some.inj h').symm⟩)
    (fun v hv => ⟨"BODY", by
      have h' : some (BVal.str "BODY") = some v := by rw [← hv]; decide
      exact (Option.some.inj h').symm⟩)
    (fun v hv => ⟨"CHAIN", by
      have h' : some (BVal.str "CHAIN") = some v := by rw [← hv]; decide
      exact (Option.some.inj h').symm⟩)

/-- The spec's `NotFoundError`: boto's `ClientError` whose error code is
`NoSuchEntity`. -/
def NotFoundError : PyError := PyError.clientError "NoSuchEntity"

/-- Helper: a successful `from_boto_dict` pins the metadata dict the raw
entry carried and the name entry inside it. -/
theorem from_boto_dict_ok_meta (d : List (String × BVal)) (c : IAMServerCertificate)
    (h : IAMServerCertificate.from_boto_dict d = Except.ok c) :
    ∃ m, List.lookup "ServerCertificateMetadata" d = some (BVal.dict m) ∧
      c.metadata = m ∧
      List.lookup "ServerCertificateName" m = some c.name := by
  unfold IAMServerCertificate.from_boto_dict at h
  cases hm : getItemB d "ServerCertificateMetadata" with
  | error e => simp [hm] at h
  | ok v =>
  simp only [hm] at h
  cases hb : getItemB d "CertificateBody" with
  | error e => simp [hb] at h
  | ok vb =>
  simp only [hb] at h
  cases hch : getItemB d "CertificateChain" with
  | error e => simp [hch] at h
  | ok vc =>
  simp only [hch] at h
  split at h
  · rename_i m b ch
    obtain ⟨hmeta, -, -, h1, -⟩ := init_ok_spec m b ch c h
    exact ⟨m, (getItemB_ok d _ _).mp hm, hmeta, h1⟩
  · simp at h

/-- C7: `get_by_name` passes every client error through unchanged — in
particular the `NoSuchEntity` `ClientError` raised when the service
reports no certificate of that name (the spec's `NotFoundError`) — and,
when the service honours its contract of returning the certificate whose
name was requested, a successful call returns a record whose name field
is the requested name. -/
theorem get_by_name_spec (client : String → Except PyError (List (String × BVal)))
    (name : String)
    (hcontract : ∀ d m, client name = Except.ok d →
      List.lookup "ServerCertificateMetadata" d = some (BVal.dict m) →
      List.lookup "ServerCertificateName" m = some (MVal.str name)) :
    (client name = Except.error NotFoundError →
      IAMServerCertificate.get_by_name client name = Except.error NotFoundError) ∧
    (∀ e, client name = Except.error e →
      IAMServerCertificate.get_by_name client name = Except.error e) ∧
    (∀ c, IAMServerCertificate.get_by_name client name = Except.ok c →
      c.name = MVal.str name) := by
  refine ⟨fun he => by simp [IAMServerCertificate.get_by_name, he],
    fun e he => by simp [IAMServerCertificate.get_by_name, he], ?_⟩
  intro c hc
  unfold IAMServerCertificate.get_by_name at hc
  cases hcl : client name with
  | error e => simp [hcl] at hc
  | ok d =>
    simp only [hcl] at hc
    obtain ⟨m, hm, hmeta, h1⟩ := from_boto_dict_ok_meta d c hc
    have hn := hcontract d m hcl hm
    rw [h1] at hn
    exact Option.some.inj hn

/-- A sample client: the store holds exactly one certificate, named
`cert-a`; any other name gets the `NoSuchEntity` client error. -/
def sampleClient (n : String) : Except PyError (List (String × BVal)) :=
  if n = "cert-a" then Except.ok sampleRaw else Except.error NotFoundError

/-- Witness for C7: the sample client returns the requested name, and a
missing name's `NoSuchEntity` error passes through. -/
theorem get_by_name_spec_witness :
    sampleCert.name = MVal.str "cert-a" ∧
    IAMServerCertificate.get_by_name sampleClient "missing" =
      Except.error NotFoundError :=
  ⟨(get_by_name_spec sampleClient "cert-a" (by
      intro d m hd hm
      have hd' : sampleRaw = d := by simpa [sampleClient] using hd
      subst hd'
      have h' : some (BVal.dict sampleMetadata) = some (BVal.dict m) := by
        rw [← hm]; decide
      obtain rfl : sampleMetadata = m := by
        injection Option.some.inj h'
      decide)).2.2 sampleCert (by decide),
   (get_by_name_spec sampleClient "missing" (by
      intro d m hd hm
      simp [sampleClient] at hd)).1 (by decide)⟩

/-- Spec-side: normalise every raw entry in service order, aborting at the
first failure. -/
def normalizeAll : List BotoServerCertificate → Except PyError (List IAMServerCertificate)
  | [] => Except.ok []
  | sc :: rest =>
    match IAMServerCertificate.from_boto_server_certificate sc with
    | Except.error e => Except.error e
    | Except.ok c =>
      match normalizeAll rest with
      | Except.error e => Except.error e
      | Except.ok cs => Except.ok (c :: cs)

/-- Spec-side: the record passes the optional name filter and, when
`valid_only` is set, is valid at `now`. -/
def keepPred (valid_only : Bool) (name : Option String) (now : Int)
    (c : IAMServerCertificate) : Bool :=
  !nameFilterSkips name c && (!valid_only || c.is_valid now none == some true)

/-- Helper: a successful listing is exactly the normalised entries, in
service order, restricted to those passing both filters. -/
theorem get_certificates_eq_filter (valid_only : Bool) (name : Option String)
    (now : Int) : ∀ (certs : List BotoServerCertificate)
    (res : List IAMServerCertificate),
    IAM.get_certificates valid_only name now certs = Except.ok res →
    Except.map (List.filter (keepPred valid_only name now)) (normalizeAll certs) =
      Except.ok res := by
  intro certs
  induction certs with
  | nil =>
    intro res h
    simp only [IAM.get_certificates] at h
    obtain rfl := (Except.ok.injEq _ _).mp h
    simp [normalizeAll, Except.map]
  | cons sc rest ih =>
    intro res h
    simp only [IAM.get_certificates] at h
    cases hfb : IAMServerCertificate.from_boto_server_certificate sc with
    | error e => simp [hfb] at h
    | ok c =>
      simp only [hfb] at h
      by_cases hskip : nameFilterSkips name c = true
      · rw [if_pos hskip] at h
        have hres := ih res h
        cases hl : normalizeAll rest with
        | error e => rw [hl] at hres; simp [Except.map] at hres
        | ok l =>
          rw [hl] at hres
          simp only [Except.map, Except.ok.injEq] at hres
          simp only [normalizeAll, hfb, hl, Except.map, Except.ok.injEq]
          have hkf : keepPred valid_only name now c = false := by
            simp [keepPred, hskip]
          simp [List.filter_cons, hkf, hres]
      · rw [if_neg hskip] at h
        have hskipf : nameFilterSkips name c = false := by
          simpa using hskip
        cases valid_only with
        | false =>
          simp only [if_neg Bool.false_ne_true] at h
          cases hr : IAM.get_certificates false name now rest with
          | error e => rw [hr] at h; simp [Except.map] at h
          | ok res' =>
            rw [hr] at h
            simp only [Except.map, Except.ok.injEq] at h
            have hres := ih res' hr
            cases hl : normalizeAll rest with
            | error e => rw [hl] at hres; simp [Except.map] at hres
            | ok l =>
              rw [hl] at hres
              simp only [Except.map, Except.ok.injEq] at hres
              simp only [normalizeAll, hfb, hl, Except.map, Except.ok.injEq]
              have hkt : keepPred false name now c = true := by
                simp [keepPred, hskipf]
              simp [List.filter_cons, hkt, hres, ← h]
        | true =>
          cases hv : c.is_valid now none with
          | none => simp [hv] at h
          | some v =>
            simp only [hv] at h
            cases v with
            | true =>
              cases hr : IAM.get_certificates true name now rest with
              | error e => simp [hr, Except.map] at h
              | ok res' =>
                simp [hr, Except.map] at h
                have hres := ih res' hr
                cases hl : normalizeAll rest with
                | error e => rw [hl] at hres; simp [Except.map] at hres
                | ok l =>
                  rw [hl] at hres
                  simp only [Except.map, Except.ok.injEq] at hres
                  simp only [normalizeAll, hfb, hl, Except.map, Except.ok.injEq]
                  have hkt : keepPred true name now c = true := by
                    simp [keepPred, hskipf, hv]
                  simp [List.filter_cons, hkt, hres, ← h]
            | false =>
              simp at h
              have hres := ih res h
              cases hl : normalizeAll rest with
              | error e => rw [hl] at hres; simp [Except.map] at hres
              | ok l =>
                rw [hl] at hres
                simp only [Except.map, Except.ok.injEq] at hres
                simp only [normalizeAll, hfb, hl, Except.map, Except.ok.injEq]
                have hkf : keepPred true name now c = false := by
                  simp [keepPred, hv]
                simp [List.filter_cons, hkf, hres]

/-- C1: a successful listing yields exactly the normalised records that
pass both optional filters — with `valid_only` only records valid at
`now`, with a name only records whose name equals it, with both their
intersection — in the relative order of the raw entries the external
service returned; every yielded record satisfies both active filters. -/
theorem get_certificates_filters (valid_only : Bool) (name : Option String)
    (now : Int) (certs : List BotoServerCertificate)
    (res : List IAMServerCertificate)
    (h : IAM.get_certificates valid_only name now certs = Except.ok res) :
    Except.map (List.filter (keepPred valid_only name now)) (normalizeAll certs) =
      Except.ok res ∧
    ∀ c ∈ res, (∀ n, name = some n → c.name = MVal.str n) ∧
      (valid_only = true → c.is_valid now none = some true) := by
  have hmain := get_certificates_eq_filter valid_only name now certs res h
  refine ⟨hmain, ?_⟩
  intro c hc
  cases hl : normalizeAll certs with
  | error e => rw [hl] at hmain; simp [Except.map] at hmain
  | ok l =>
    rw [hl] at hmain
    simp only [Except.map, Except.ok.injEq] at hmain
    rw [← hmain] at hc
    have hk := List.of_mem_filter hc
    constructor
    · intro n hn
      subst hn
      simp [keepPred, nameFilterSkips] at hk
      exact hk.1
    · intro hvo
      subst hvo
      simp [keepPred] at hk
      exact hk.2

/-- The raw resource-level entry for the sample certificate. -/
def sampleBotoA : BotoServerCertificate :=
  { server_certificate_metadata := sampleMetadata,
    certificate_body := "BODY",
    certificate_chain := "CHAIN" }

/-- Metadata of a second, already expired certificate. -/
def sampleMetadataB : List (String × MVal) :=
  [("ServerCertificateName", MVal.str "cert-b"),
   ("Arn", MVal.str "arn:aws:iam::123:server-certificate/cert-b"),
   ("Expiration", MVal.time 20),
   ("Path", MVal.str "/"),
   ("ServerCertificateId", MVal.str "ID2"),
   ("UploadDate", MVal.time 15)]

/-- The raw resource-level entry for the expired certificate. -/
def sampleBotoB : BotoServerCertificate :=
  { server_certificate_metadata := sampleMetadataB,
    certificate_body := "BODYB",
    certificate_chain := "CHAINB" }

/-- A sample store: one valid and one expired certificate. -/
def sampleStore : List BotoServerCertificate := [sampleBotoA, sampleBotoB]

/-- Witness for C1: at time 50 the default listing of the sample store
yields only the valid certificate, and the characterisation holds. -/
theorem get_certificates_filters_witness :
    Except.map (List.filter (keepPred true none 50)) (normalizeAll sampleStore) =
      Except.ok [sampleCert] :=
  (get_certificates_filters true none 50 sampleStore [sampleCert] (by decide)).1
